import Mathlib

/-!
Verification of the error-handling surface and solver output contract of the
pubgrub dependency solver crate.

The file `src/error.rs` of the crate is embedded faithfully below:
the `PubGrubError` enum with its four variants and their payload fields,
the `NoSolutionError` type alias, the `From` conversion, the `thiserror`
Display messages, and the manual `Debug` implementation.  The solver engine
itself, the `DependencyProvider` trait and the `DerivationTree` type are not
part of the given sources; where a claim depends on them they are modelled
from the specification, with a doc comment saying so.

The Rust enum `PubGrubError<DP: DependencyProvider>` is generic over a
dependency provider with associated types `P` (package), `V` (version),
`VS` (version set), `M` (metadata) and `Err` (provider error); the embedding
takes these five associated types as explicit type parameters.
-/

namespace PubGrub

/-- Modelled from the spec: the `DerivationTree` type is referenced by
`src/error.rs` but its definition is not under `src/`.  Per the spec's data
model it is a binary tree, parameterized over the package, version-set and
metadata types, whose leaves are incompatibilities with
External/NotRoot/NoVersions cause and whose internal nodes are
DerivedFrom combinations of two parents. -/
inductive DerivationTree (P VS M : Type) : Type where
  | notRoot (package : P) : DerivationTree P VS M
  | noVersions (package : P) (set : VS) : DerivationTree P VS M
  | external (package : P) (set : VS) (extra : M) : DerivationTree P VS M
  | derived (cause1 cause2 : DerivationTree P VS M) : DerivationTree P VS M
deriving DecidableEq

/-- `type NoSolutionError<DP> = DerivationTree<DP::P, DP::VS, DP::M>;`
(src/error.rs lines 10-14). -/
abbrev NoSolutionError (P VS M : Type) : Type := DerivationTree P VS M

/-- `pub enum PubGrubError<DP: DependencyProvider>` (src/error.rs lines 17-49):
the four variants and their exact payload fields. -/
inductive PubGrubError (P V VS M Err : Type) : Type where
  /-- `NoSolution(NoSolutionError<DP>)` -/
  | noSolution (err : NoSolutionError P VS M) : PubGrubError P V VS M Err
  /-- `ErrorRetrievingDependencies { package: DP::P, version: DP::V, source: DP::Err }` -/
  | errorRetrievingDependencies (package : P) (version : V) (source : Err) :
      PubGrubError P V VS M Err
  /-- `ErrorChoosingVersion { package: DP::P, source: DP::Err }` -/
  | errorChoosingVersion (package : P) (source : Err) : PubGrubError P V VS M Err
  /-- `ErrorInShouldCancel(#[source] DP::Err)` -/
  | errorInShouldCancel (source : Err) : PubGrubError P V VS M Err
deriving DecidableEq

variable {P V VS M Err : Type}

/-- The package payload carried by each variant of `PubGrubError`, read off
the constructor fields of src/error.rs: the two struct variants have a
`package` field, the two tuple variants have none. -/
def packageOf : PubGrubError P V VS M Err → Option P
  | .noSolution _ => none
  | .errorRetrievingDependencies p _ _ => some p
  | .errorChoosingVersion p _ => some p
  | .errorInShouldCancel _ => none

/-- The version payload carried by each variant of `PubGrubError`:
only `ErrorRetrievingDependencies` has a `version` field. -/
def versionOf : PubGrubError P V VS M Err → Option V
  | .noSolution _ => none
  | .errorRetrievingDependencies _ v _ => some v
  | .errorChoosingVersion _ _ => none
  | .errorInShouldCancel _ => none

/-- The provider error reachable through the error-source chain, read off
src/error.rs: the `source` fields of the two struct variants and the
`#[source]` payload of `ErrorInShouldCancel`; `NoSolution` has none. -/
def sourceOf : PubGrubError P V VS M Err → Option Err
  | .noSolution _ => none
  | .errorRetrievingDependencies _ _ s => some s
  | .errorChoosingVersion _ s => some s
  | .errorInShouldCancel s => some s

/-- The derivation tree carried by `NoSolution`, absent from the other
variants. -/
def treeOf : PubGrubError P V VS M Err → Option (DerivationTree P VS M)
  | .noSolution t => some t
  | .errorRetrievingDependencies _ _ _ => none
  | .errorChoosingVersion _ _ => none
  | .errorInShouldCancel _ => none

/-- The full payload of the `ErrorRetrievingDependencies` variant: the
(package, version, source) triple, absent from every other variant. -/
def retrievalPayload : PubGrubError P V VS M Err → Option (P × V × Err)
  | .errorRetrievingDependencies p v s => some (p, v, s)
  | _ => none

/-- The full payload of the `ErrorChoosingVersion` variant: the
(package, source) pair, absent from every other variant. -/
def choosingPayload : PubGrubError P V VS M Err → Option (P × Err)
  | .errorChoosingVersion p s => some (p, s)
  | _ => none

/-- `impl From<NoSolutionError<DP>> for PubGrubError<DP>`
(src/error.rs lines 51-55): `Self::NoSolution(err)`. -/
def fromNoSolutionError (err : NoSolutionError P VS M) : PubGrubError P V VS M Err :=
  .noSolution err

/-- The `Display` messages generated by the `#[error(...)]` attributes of
src/error.rs (thiserror).  Interpolated fields (`{package}`, `{version}`)
are rendered through the caller-supplied Display functions `fp` and `fv`;
the other payloads do not occur in any format string. -/
def displayMsg (fp : P → String) (fv : V → String) :
    PubGrubError P V VS M Err → String
  | .noSolution _ => "There is no solution"
  | .errorRetrievingDependencies p v _ =>
      "Retrieving dependencies of " ++ fp p ++ " " ++ fv v ++ " failed"
  | .errorChoosingVersion p _ =>
      "Choosing a version for " ++ fp p ++ " failed"
  | .errorInShouldCancel _ => "The solver was cancelled"

/-- The manual `impl Debug for PubGrubError` (src/error.rs lines 57-84),
which requires only the `DependencyProvider` bound on `DP` (no `Debug`
bound on `DP` itself): the payload types are rendered through the
caller-supplied Debug functions `dt`, `dp`, `dv`, `de`.  `NoSolution` and
`ErrorInShouldCancel` are printed with `debug_tuple`, the other two with
`debug_struct` and their field names, matching the standard `Formatter`
output in non-alternate mode. -/
def debugFmt (dt : DerivationTree P VS M → String) (dp : P → String)
    (dv : V → String) (de : Err → String) :
    PubGrubError P V VS M Err → String
  | .noSolution t => "NoSolution(" ++ dt t ++ ")"
  | .errorRetrievingDependencies p v s =>
      "ErrorRetrievingDependencies \x7b package: " ++ dp p ++ ", version: " ++
        dv v ++ ", source: " ++ de s ++ " \x7d"
  | .errorChoosingVersion p s =>
      "ErrorChoosingVersion \x7b package: " ++ dp p ++ ", source: " ++
        de s ++ " \x7d"
  | .errorInShouldCancel s => "ErrorInShouldCancel(" ++ de s ++ ")"

/-- Modelled from the spec: the solver's handling of `should_cancel` is not
under `src/`.  Per the spec, `should_cancel() → bool | error` is polled by
the loop; the run aborts with the `ErrorInShouldCancel` kind both when the
check itself fails (wrapping the provider's error) and when it returns
true (wrapping the provider-designated cancellation error `cancelErr`). -/
def handleShouldCancel (cancelErr : Err) :
    Except Err Bool → Except (PubGrubError P V VS M Err) Unit
  | .error e => .error (.errorInShouldCancel e)
  | .ok true => .error (.errorInShouldCancel cancelErr)
  | .ok false => .ok ()

section Solver

variable {P V : Type} [DecidableEq P]

/-- The version currently assigned to package `p` by the partial solution
`sol` (an association list of decisions, one version per package). -/
def lookupPkg (sol : List (P × V)) (p : P) : Option V :=
  (sol.find? fun a => decide (a.1 = p)).map fun a => a.2

/-- Modelled from the spec: the solver engine (partial solution,
incompatibility store, propagation and decision loop) is not under `src/`.
`solve avail deps fuel pending sol` resolves the pending requirements
(package, acceptable-range) against the provider's available versions
`avail` (the `choose_version` candidates, tried in order) and direct
dependencies `deps` (`get_dependencies`): a requirement on an
already-decided package is checked against the decided version (conflict
aborts the branch, forcing backtracking in the enclosing choice), an
undecided package is decided at some acceptable available version and its
dependencies are enqueued, and an empty queue returns the accumulated
solution map.  `fuel` bounds the recursion (the spec's termination
argument is external to this model). -/
def solve (avail : P → List V) (deps : P → V → List (P × (V → Bool))) :
    Nat → List (P × (V → Bool)) → List (P × V) → Option (List (P × V))
  | 0, _, _ => none
  | _ + 1, [], sol => some sol
  | fuel + 1, (p, range) :: rest, sol =>
    match lookupPkg sol p with
    | some v => if range v then solve avail deps fuel rest sol else none
    | none =>
      ((avail p).filter range).findSome? fun v =>
        solve avail deps fuel (deps p v ++ rest) ((p, v) :: sol)

/-- Modelled from the spec: a full `solve` call starts from the root
requirements with an empty partial solution. -/
def solveRoot (avail : P → List V) (deps : P → V → List (P × (V → Bool)))
    (fuel : Nat) (rootDeps : List (P × (V → Bool))) : Option (List (P × V)) :=
  solve avail deps fuel rootDeps []

/-- Soundness of a solution map (spec §8): every dependency range declared
by any chosen package at its chosen version is satisfied by the chosen
version of the target package.  Equivalently no `from_dependency`
incompatibility over the chosen packages is satisfied by the assignment. -/
def depsSatisfied (deps : P → V → List (P × (V → Bool)))
    (sol : List (P × V)) : Prop :=
  ∀ p v, (p, v) ∈ sol → ∀ q r, (q, r) ∈ deps p v →
    ∃ w, lookupPkg sol q = some w ∧ r w = true

/-- Invariant of the solver loop: every dependency of every decided package
is either still pending or already satisfied by the partial solution. -/
def pendingInv (deps : P → V → List (P × (V → Bool)))
    (pending : List (P × (V → Bool))) (sol : List (P × V)) : Prop :=
  ∀ p v, (p, v) ∈ sol → ∀ q r, (q, r) ∈ deps p v →
    (q, r) ∈ pending ∨ ∃ w, lookupPkg sol q = some w ∧ r w = true

theorem exists_of_findSome_eq_some {α β : Type} {f : α → Option β} :
    ∀ {l : List α} {b : β}, l.findSome? f = some b → ∃ a, a ∈ l ∧ f a = some b
  | [], _, h => by simp [List.findSome?] at h
  | a :: l, b, h => by
    rw [List.findSome?_cons] at h
    cases hfa : f a with
    | some c =>
      rw [hfa] at h
      exact ⟨a, List.mem_cons_self a l, hfa.trans h⟩
    | none =>
      rw [hfa] at h
      obtain ⟨x, hx, hfx⟩ := exists_of_findSome_eq_some h
      exact ⟨x, List.mem_cons_of_mem a hx, hfx⟩

theorem lookupPkg_cons_self {sol : List (P × V)} {p : P} {v : V} :
    lookupPkg ((p, v) :: sol) p = some v := by
  simp [lookupPkg, List.find?_cons]

theorem lookupPkg_cons_ne {sol : List (P × V)} {p q : P} {v : V} (h : p ≠ q) :
    lookupPkg ((p, v) :: sol) q = lookupPkg sol q := by
  simp [lookupPkg, List.find?_cons, h]

theorem lookupPkg_eq_none_iff {sol : List (P × V)} {p : P} :
    lookupPkg sol p = none ↔ ∀ x ∈ sol, x.1 ≠ p := by
  simp [lookupPkg, List.find?_eq_none]

/-- The invariant is preserved and, on an empty queue, yields soundness:
core lemma for the solver loop. -/
theorem solve_invariant {avail : P → List V}
    {deps : P → V → List (P × (V → Bool))} :
    ∀ {fuel : Nat} {pending : List (P × (V → Bool))} {sol sol' : List (P × V)},
      pendingInv deps pending sol →
      solve avail deps fuel pending sol = some sol' →
      depsSatisfied deps sol'
  | 0, _, _, _, _, h => by simp [solve] at h
  | fuel + 1, [], sol, sol', hinv, h => by
    rw [solve] at h
    cases h
    exact fun p v hpv q r hqr => (hinv p v hpv q r hqr).resolve_left (by simp)
  | fuel + 1, (p, range) :: rest, sol, sol', hinv, h => by
    rw [solve] at h
    cases hl : lookupPkg sol p with
    | some v =>
      rw [hl] at h
      dsimp only at h
      by_cases hr : range v = true
      · rw [if_pos hr] at h
        refine solve_invariant (fun a w haw q s hqs => ?_) h
        rcases hinv a w haw q s hqs with hmem | hsat
        · rcases List.mem_cons.mp hmem with heq | hmem
          · cases heq
            exact Or.inr ⟨v, hl, hr⟩
          · exact Or.inl hmem
        · exact Or.inr hsat
      · rw [if_neg hr] at h
        exact absurd h (by simp)
    | none =>
      rw [hl] at h
      dsimp only at h
      obtain ⟨v, hv, hsolve⟩ := exists_of_findSome_eq_some h
      have hvr : range v = true := (List.mem_filter.mp hv).2
      have hpnew : ∀ x ∈ sol, x.1 ≠ p := lookupPkg_eq_none_iff.mp hl
      refine solve_invariant (fun a w haw q s hqs => ?_) hsolve
      rcases List.mem_cons.mp haw with heq | haw
      · cases heq
        exact Or.inl (List.mem_append_left rest hqs)
      · rcases hinv a w haw q s hqs with hmem | hsat
        · rcases List.mem_cons.mp hmem with heq | hmem
          · cases heq
            exact Or.inr ⟨v, lookupPkg_cons_self, hvr⟩
          · exact Or.inl (List.mem_append_right (deps p v) hmem)
        · obtain ⟨w', hw', hsw'⟩ := hsat
          have hqp : p ≠ q := by
            intro hqp
            cases hqp
            rw [hl] at hw'
            exact Option.noConfusion hw'
          exact Or.inr ⟨w', (lookupPkg_cons_ne hqp).trans hw', hsw'⟩

end Solver

/-- Outcome classification of a solve-call result: `0` for a solution map,
`1` for `NoSolution` with its derivation tree, `2` for a provider error.
Being a total function, it assigns exactly one class to every result. -/
def outcomeClass {P V VS M Err S : Type} :
    Except (PubGrubError P V VS M Err) S → Fin 3
  | .ok _ => 0
  | .error (.noSolution _) => 1
  | .error (.errorRetrievingDependencies _ _ _) => 2
  | .error (.errorChoosingVersion _ _) => 2
  | .error (.errorInShouldCancel _) => 2

/-- Example provider for witnesses (spec §8 Scenario A): root requires
package 0 at version 10; package 0 at version 10 requires package 1 in
the range [10, 20); package 1 has only version 15. -/
def exAvail : Nat → List Nat
  | 0 => [10]
  | 1 => [15]
  | _ => []

/-- Half-open interval version range for the example provider. -/
def exRange (lo hi : Nat) : Nat → Bool := fun v => decide (lo ≤ v) && decide (v < hi)

/-- Dependencies of the example provider. -/
def exDeps : Nat → Nat → List (Nat × (Nat → Bool))
  | 0, 10 => [(1, exRange 10 20)]
  | _, _ => []

/-- Root requirements of the example provider. -/
def exRoot : List (Nat × (Nat → Bool)) := [(0, fun v => decide (v = 10))]

/-- C1: for any solution returned by a solve call, every package's chosen
version satisfies every dependency range declared by every chosen package;
equivalently, no dependency incompatibility over the chosen packages is
satisfied by the returned assignment. -/
theorem solveRoot_sound {P V : Type} [DecidableEq P]
    (avail : P → List V) (deps : P → V → List (P × (V → Bool)))
    (fuel : Nat) (rootDeps : List (P × (V → Bool))) (sol : List (P × V))
    (h : solveRoot avail deps fuel rootDeps = some sol) :
    depsSatisfied deps sol :=
  solve_invariant (fun p v hpv => absurd hpv (List.not_mem_nil (p, v))) h

/-- Witness for C1: on the Scenario A provider the solver returns the map
pairing package 1 with version 15 and package 0 with version 10, and that
map satisfies every declared dependency range. -/
theorem solveRoot_sound_witness :
    depsSatisfied exDeps [(1, 15), (0, 10)] :=
  solveRoot_sound exAvail exDeps 10 exRoot [(1, 15), (0, 10)] (by rfl)

/-- C2: `PubGrubError` has exactly the four variants `NoSolution`,
`ErrorRetrievingDependencies`, `ErrorChoosingVersion` and
`ErrorInShouldCancel`, and every solve-call result is exactly one of a
solution map, a `NoSolution` carrying a derivation tree, or an error
carrying a provider source error; the total classifier `outcomeClass`
assigns each result a unique class, so no partial or ambiguous result
exists. -/
theorem solve_outcome_exactly_one (P V VS M Err S : Type) :
    (∀ e : PubGrubError P V VS M Err,
      (∃ t, e = PubGrubError.noSolution t) ∨
      (∃ p v s, e = PubGrubError.errorRetrievingDependencies p v s) ∨
      (∃ p s, e = PubGrubError.errorChoosingVersion p s) ∨
      (∃ s, e = PubGrubError.errorInShouldCancel s)) ∧
    (∀ r : Except (PubGrubError P V VS M Err) S,
      (outcomeClass r = 0 ∧ ∃ sol, r = Except.ok sol) ∨
      (outcomeClass r = 1 ∧ ∃ t, r = Except.error (PubGrubError.noSolution t)) ∨
      (outcomeClass r = 2 ∧ ∃ e s, r = Except.error e ∧ sourceOf e = some s)) := by
  constructor
  · intro e
    cases e with
    | noSolution t => exact Or.inl ⟨t, rfl⟩
    | errorRetrievingDependencies p v s => exact Or.inr (Or.inl ⟨p, v, s, rfl⟩)
    | errorChoosingVersion p s => exact Or.inr (Or.inr (Or.inl ⟨p, s, rfl⟩))
    | errorInShouldCancel s => exact Or.inr (Or.inr (Or.inr ⟨s, rfl⟩))
  · intro r
    cases r with
    | ok sol => exact Or.inl ⟨rfl, sol, rfl⟩
    | error e =>
      cases e with
      | noSolution t => exact Or.inr (Or.inl ⟨rfl, t, rfl⟩)
      | errorRetrievingDependencies p v s =>
        exact Or.inr (Or.inr ⟨rfl, PubGrubError.errorRetrievingDependencies p v s, s, rfl, rfl⟩)
      | errorChoosingVersion p s =>
        exact Or.inr (Or.inr ⟨rfl, PubGrubError.errorChoosingVersion p s, s, rfl, rfl⟩)
      | errorInShouldCancel s =>
        exact Or.inr (Or.inr ⟨rfl, PubGrubError.errorInShouldCancel s, s, rfl, rfl⟩)

/-- C3 counterexample: a concrete cancellation failure value carries no
package payload and no version payload — only the provider's source
error — refuting the claim that every provider-call failure kind, the
cancellation kind in particular, carries the offending package/version. -/
theorem errorInShouldCancel_no_package_version :
    packageOf (@PubGrubError.errorInShouldCancel Nat Nat Nat Nat Nat 7) = none ∧
    versionOf (@PubGrubError.errorInShouldCancel Nat Nat Nat Nat Nat 7) = none ∧
    sourceOf (@PubGrubError.errorInShouldCancel Nat Nat Nat Nat Nat 7) = some 7 :=
  ⟨rfl, rfl, rfl⟩

/-- C3 (amended): every provider-call failure kind carries the underlying
provider error; the dependency-retrieval kind additionally carries the
offending package and version, the version-choice kind carries the
offending package (but no version), and the cancellation kind carries
neither package nor version. -/
theorem providerError_payloads (P V VS M Err : Type) (p : P) (v : V) (s : Err) :
    (packageOf (.errorRetrievingDependencies p v s : PubGrubError P V VS M Err) = some p
      ∧ versionOf (.errorRetrievingDependencies p v s : PubGrubError P V VS M Err) = some v
      ∧ sourceOf (.errorRetrievingDependencies p v s : PubGrubError P V VS M Err) = some s)
    ∧ (packageOf (.errorChoosingVersion p s : PubGrubError P V VS M Err) = some p
      ∧ versionOf (.errorChoosingVersion p s : PubGrubError P V VS M Err) = none
      ∧ sourceOf (.errorChoosingVersion p s : PubGrubError P V VS M Err) = some s)
    ∧ (packageOf (.errorInShouldCancel s : PubGrubError P V VS M Err) = none
      ∧ versionOf (.errorInShouldCancel s : PubGrubError P V VS M Err) = none
      ∧ sourceOf (.errorInShouldCancel s : PubGrubError P V VS M Err) = some s) :=
  ⟨⟨rfl, rfl, rfl⟩, ⟨rfl, rfl, rfl⟩, ⟨rfl, rfl, rfl⟩⟩

/-- C4: a `PubGrubError` value is of the `ErrorRetrievingDependencies` kind
with payload triple (package, version, source) exactly when it is that
constructor applied to exactly those three payloads — the variant carries
exactly the package, the version and the provider's source error. -/
theorem retrievalPayload_char (P V VS M Err : Type)
    (e : PubGrubError P V VS M Err) (p : P) (v : V) (s : Err) :
    retrievalPayload e = some (p, v, s) ↔
      e = PubGrubError.errorRetrievingDependencies p v s := by
  cases e <;> simp [retrievalPayload]

/-- Witness for C4 at a concrete error value. -/
theorem retrievalPayload_char_witness :
    (PubGrubError.errorRetrievingDependencies 3 5 7 : PubGrubError Nat Nat Nat Nat Nat)
      = PubGrubError.errorRetrievingDependencies 3 5 7 :=
  (retrievalPayload_char Nat Nat Nat Nat Nat
    (PubGrubError.errorRetrievingDependencies 3 5 7) 3 5 7).mp (by rfl)

/-- C5: `NoSolutionError` is definitionally the `DerivationTree` type over
the provider's package, version-set and metadata types, and the
`NoSolution` variant carries exactly such a tree, recoverable unchanged. -/
theorem noSolutionError_is_derivationTree (P V VS M Err : Type)
    (t : DerivationTree P VS M) :
    NoSolutionError P VS M = DerivationTree P VS M ∧
    treeOf (.noSolution t : PubGrubError P V VS M Err) = some t :=
  ⟨rfl, rfl⟩

/-- C6: a `PubGrubError` value is of the `ErrorChoosingVersion` kind with
payload pair (package, source) exactly when it is that constructor applied
to exactly those two payloads — the variant carries exactly the package
and the provider's source error, with no version field. -/
theorem choosingPayload_char (P V VS M Err : Type)
    (e : PubGrubError P V VS M Err) (p : P) (s : Err) :
    choosingPayload e = some (p, s) ↔
      e = PubGrubError.errorChoosingVersion p s := by
  cases e <;> simp [choosingPayload]

/-- Witness for C6 at a concrete error value. -/
theorem choosingPayload_char_witness :
    (PubGrubError.errorChoosingVersion 3 7 : PubGrubError Nat Nat Nat Nat Nat)
      = PubGrubError.errorChoosingVersion 3 7 :=
  (choosingPayload_char Nat Nat Nat Nat Nat
    (PubGrubError.errorChoosingVersion 3 7) 3 7).mp (by rfl)

/-- C7: the `ErrorInShouldCancel` kind is produced both when the
cancellation check itself fails (wrapping the provider's error) and when
it returns true (wrapping the provider-designated cancellation error), and
in no other case; in either failing case the produced value carries the
provider's source error. -/
theorem handleShouldCancel_produces_cancel (P V VS M Err : Type)
    (cancelErr e : Err) :
    handleShouldCancel cancelErr (Except.error e)
      = Except.error (.errorInShouldCancel e : PubGrubError P V VS M Err) ∧
    handleShouldCancel cancelErr (Except.ok true)
      = Except.error (.errorInShouldCancel cancelErr : PubGrubError P V VS M Err) ∧
    handleShouldCancel cancelErr (Except.ok false)
      = (Except.ok () : Except (PubGrubError P V VS M Err) Unit) :=
  ⟨rfl, rfl, rfl⟩

/-- C8: converting a `NoSolutionError` (derivation tree) into
`PubGrubError` via the `From` impl yields exactly the `NoSolution` variant
wrapping the tree unchanged, and matching on the result recovers the tree;
`treeOf` is a retraction of the conversion, so it is an injection with no
loss or modification. -/
theorem fromNoSolutionError_eq (P V VS M Err : Type) (t : NoSolutionError P VS M) :
    (fromNoSolutionError t : PubGrubError P V VS M Err) = .noSolution t ∧
    treeOf (fromNoSolutionError t : PubGrubError P V VS M Err) = some t :=
  ⟨rfl, rfl⟩

/-- C9: the Display message of `ErrorInShouldCancel` is the constant string
"The solver was cancelled" for every wrapped source error (the universally
quantified `e` never occurs in the message), and the provider error is
reachable through the error-source chain. -/
theorem errorInShouldCancel_display (P V VS M Err : Type)
    (fp : P → String) (fv : V → String) (e : Err) :
    displayMsg fp fv (.errorInShouldCancel e : PubGrubError P V VS M Err)
      = "The solver was cancelled" ∧
    sourceOf (.errorInShouldCancel e : PubGrubError P V VS M Err) = some e :=
  ⟨rfl, rfl⟩

/-- C10: Debug formatting of `PubGrubError` is the total deterministic
function `debugFmt` (parameterized only by Debug renderings of the
provider's associated types, never of the provider itself); each variant
prints its own name with exactly its payload fields — `NoSolution` and
`ErrorInShouldCancel` as single-field tuples, `ErrorRetrievingDependencies`
as a struct with fields package, version, source, and
`ErrorChoosingVersion` as a struct with fields package, source. -/
theorem debugFmt_variants (P V VS M Err : Type)
    (dt : DerivationTree P VS M → String) (dp : P → String) (dv : V → String)
    (de : Err → String) (t : DerivationTree P VS M) (p : P) (v : V) (s : Err) :
    debugFmt dt dp dv de (.noSolution t : PubGrubError P V VS M Err)
      = "NoSolution(" ++ dt t ++ ")" ∧
    debugFmt dt dp dv de (.errorRetrievingDependencies p v s : PubGrubError P V VS M Err)
      = "ErrorRetrievingDependencies \x7b package: " ++ dp p ++ ", version: " ++
          dv v ++ ", source: " ++ de s ++ " \x7d" ∧
    debugFmt dt dp dv de (.errorChoosingVersion p s : PubGrubError P V VS M Err)
      = "ErrorChoosingVersion \x7b package: " ++ dp p ++ ", source: " ++
          de s ++ " \x7d" ∧
    debugFmt dt dp dv de (.errorInShouldCancel s : PubGrubError P V VS M Err)
      = "ErrorInShouldCancel(" ++ de s ++ ")" :=
  ⟨rfl, rfl, rfl, rfl⟩

end PubGrub
